import Mathlib

/-!
Verification of the mcp-chaos data-plane engine against its specification.

The definitions below are shallow embeddings of the TypeScript source:
the outcome classifier, the schema mutation generator, the seeded chaos
engine, the journal store operations, the stdio-proxy message handlers,
and the trace-diff comparator.  Machine arithmetic that the source performs
on 32-bit values is modelled on `Nat` with explicit reduction modulo 2^32;
JavaScript floating-point quantities that the claims depend on are modelled
as rationals.  Theorems at the end settle each specification claim.
-/

namespace McpChaos

/-! ## Outcome classifier (commands/stress.ts and the stress router)

The classifier receives the error message (if any), the response payload,
and the timed-out flag, and maps them to one of three outcomes.  The source
tests the error message against two fixed lists of JavaScript regular
expressions with the `i` flag; every pattern is either a plain literal or
two literals joined by `.*` (where `.` does not match a line terminator).
-/

inductive StressOutcome
  | pass
  | graceful_fail
  | crash_or_hang
  deriving DecidableEq, Repr

/-- Literal patterns and two-literal `.*` patterns, the only shapes used by
the classifier's regular expressions. -/
inductive Pat
  | lit (s : String)
  | seq (a b : String)

/-- JavaScript line terminators, which `.` in a regular expression without
the `s` flag does not match. -/
def isLineTerm (c : Char) : Bool :=
  c = '\n' || c = '\r' || c.val = 0x2028 || c.val = 0x2029

/-- Scan forward over non-terminator characters looking for the literal `b`
starting at the current position or later. -/
def seekLit (b : List Char) : List Char → Bool
  | [] => b.isPrefixOf []
  | c :: rest =>
      b.isPrefixOf (c :: rest) || (!isLineTerm c && seekLit b rest)

/-- Test whether `a` occurs, followed (after any run of non-terminator
characters) by `b`; the JavaScript semantics of the pattern `a.*b`. -/
def dotStarTest (a b : List Char) : List Char → Bool
  | [] => a.isPrefixOf [] && seekLit b []
  | c :: rest =>
      (a.isPrefixOf (c :: rest) && seekLit b ((c :: rest).drop a.length))
        || dotStarTest a b rest

/-- Test whether `p` occurs as a contiguous substring. -/
def substrTest (p : List Char) : List Char → Bool
  | [] => p.isPrefixOf []
  | c :: rest => p.isPrefixOf (c :: rest) || substrTest p rest

/-- Case-insensitive test of one classifier pattern against a string,
matching the JavaScript `pattern.test(error)` with the `i` flag. -/
def testPat (p : Pat) (s : String) : Bool :=
  match p with
  | .lit l => substrTest l.toLower.toList s.toLower.toList
  | .seq a b => dotStarTest a.toLower.toList b.toLower.toList s.toLower.toList

/-- Validation-vocabulary patterns of `classifyOutcome` (gracefulPatterns). -/
def gracefulPatterns : List Pat :=
  [.lit "invalid", .lit "required", .lit "missing", .seq "type" "expected",
   .lit "must be", .lit "should be", .lit "cannot be", .lit "not allowed",
   .lit "validation", .lit "argument", .lit "parameter", .lit "property",
   .lit "schema"]

/-- Crash-vocabulary patterns of `classifyOutcome` (crashPatterns). -/
def crashPatterns : List Pat :=
  [.lit "crash", .lit "segfault", .lit "exception", .seq "internal" "error",
   .lit "unexpected", .lit "panic", .lit "fatal", .lit "killed"]

/-- JavaScript truthiness of the optional error-message string: `!error`
holds when the message is absent or empty. -/
def errFalsy : Option String → Bool
  | none => true
  | some s => s.isEmpty

/-- Shallow embedding of `classifyOutcome(error, response, timedOut)`.  The
response payload is ignored by the source, kept here for signature fidelity
(`response` is represented only by whether one was present). -/
def classifyOutcome (error : Option String) (_response : Option Unit)
    (timedOut : Bool) : StressOutcome :=
  if timedOut then .crash_or_hang
  else if errFalsy error then .pass
  else
    let e := error.getD ""
    if gracefulPatterns.any (fun p => testPat p e) then .graceful_fail
    else if crashPatterns.any (fun p => testPat p e) then .crash_or_hang
    else .graceful_fail

/-- Rule set as the specification words it: timed out first, then the
no-error rule (an absent or empty error message counts as no error), then
the validation vocabulary, then the crash vocabulary, then the default. -/
def specClassifyOutcome (error : Option String) (_response : Option Unit)
    (timedOut : Bool) : StressOutcome :=
  if timedOut then .crash_or_hang
  else if error = none ∨ error = some "" then .pass
  else if gracefulPatterns.any (fun p => testPat p (error.getD "")) then
    .graceful_fail
  else if crashPatterns.any (fun p => testPat p (error.getD "")) then
    .crash_or_hang
  else .graceful_fail

lemma errFalsy_iff (e : Option String) :
    errFalsy e = true ↔ e = none ∨ e = some "" := by
  cases e with
  | none => simp [errFalsy]
  | some s =>
      simp [errFalsy, String.isEmpty_iff]

/-! ## Journal store (server/db/schema.ts and server/db/queries.ts)

The relational catalog is modelled as in-memory tables.  Timestamps are an
abstract clock (`Nat`).  `deleteProject` follows the foreign-key actions
declared in the schema: `agents.project_id` is `ON DELETE CASCADE`,
`runs.agent_id` is `ON DELETE SET NULL`, and `trace_events.run_id` is
`ON DELETE CASCADE` (so events are cascaded only when their run is
deleted). -/

inductive RunType
  | proxy
  | stress
  deriving DecidableEq, Repr

inductive RunStatus
  | pending
  | running
  | completed
  | failed
  deriving DecidableEq, Repr

structure Project where
  id : String
  name : String
  description : Option String
  created_at : Nat
  deriving DecidableEq, Repr

structure Agent where
  id : String
  project_id : String
  name : String
  target : String
  chaos_profile : Option String
  created_at : Nat
  deriving DecidableEq, Repr

structure Run where
  id : String
  agent_id : Option String
  name : Option String := none
  target : String
  run_type : RunType := .proxy
  chaos_profile : Option String := none
  status : RunStatus := .pending
  started_at : Option Nat := none
  ended_at : Option Nat := none
  total_calls : Nat := 0
  total_errors : Nat := 0
  stress_passed : Nat := 0
  stress_graceful : Nat := 0
  stress_crashed : Nat := 0
  stress_score : Nat := 0
  created_at : Nat := 0
  deriving DecidableEq, Repr

structure EventRow where
  id : Nat
  run_id : String
  event_type : String
  method : Option String := none
  tool_name : Option String := none
  params_json : Option String := none
  result_json : Option String := none
  error_json : Option String := none
  latency_ms : Option Nat := none
  timestamp : Nat := 0
  chaos_applied : Option String := none
  deriving DecidableEq, Repr

structure Store where
  projects : List Project
  agents : List Agent
  runs : List Run
  events : List EventRow
  nextEventId : Nat
  deriving Repr

/-- Shallow embedding of `RunQueries.deleteProject` together with the
foreign-key actions the schema declares.  The SQL `DELETE FROM projects
WHERE id = ?` removes the project row; the declared actions then cascade
the delete to agents of the project and set `agent_id` to null on runs of
those agents.  Events are untouched because only deleting a run cascades
to `trace_events`.  Returns the new store and `result.changes > 0`. -/
def deleteProject (s : Store) (pid : String) : Store × Bool :=
  let affected := s.projects.any (fun p => p.id = pid)
  let deletedAgentIds := (s.agents.filter (fun a => a.project_id = pid)).map (·.id)
  ({ s with
      projects := s.projects.filter (fun p => ¬ p.id = pid)
      agents := s.agents.filter (fun a => ¬ a.project_id = pid)
      runs := s.runs.map (fun r =>
        match r.agent_id with
        | some aid => if aid ∈ deletedAgentIds then { r with agent_id := none } else r
        | none => r) },
   affected)

/-- Shallow embedding of `RunQueries.deleteRun`: removes the run row, and
the declared `ON DELETE CASCADE` on `trace_events.run_id` removes its
events. -/
def deleteRun (s : Store) (rid : String) : Store × Bool :=
  let affected := s.runs.any (fun r => r.id = rid)
  ({ s with
      runs := s.runs.filter (fun r => ¬ r.id = rid)
      events := s.events.filter (fun e => ¬ e.run_id = rid) },
   affected)

/-- Optional counter updates accepted by `updateRunStatus`. -/
structure UpdateStats where
  totalCalls : Option Nat := none
  totalErrors : Option Nat := none
  deriving Repr

/-- Shallow embedding of the row update performed by
`RunQueries.updateRunStatus`: the status column is set unconditionally;
`started_at` is set to the current time exactly when the new status is
`running`; `ended_at` exactly when it is `completed` or `failed`; the
counters only when supplied. -/
def updateRunStatusRow (r : Run) (st : RunStatus) (stats : Option UpdateStats)
    (now : Nat) : Run :=
  { r with
    status := st
    started_at := if st = .running then some now else r.started_at
    ended_at := if st = .completed ∨ st = .failed then some now else r.ended_at
    total_calls :=
      match stats with
      | some u => match u.totalCalls with
        | some n => n
        | none => r.total_calls
      | none => r.total_calls
    total_errors :=
      match stats with
      | some u => match u.totalErrors with
        | some n => n
        | none => r.total_errors
      | none => r.total_errors }

/-- Store-level `updateRunStatus(id, status, stats?)`. -/
def updateRunStatus (s : Store) (id : String) (st : RunStatus)
    (stats : Option UpdateStats) (now : Nat) : Store :=
  { s with runs := s.runs.map (fun r =>
      if r.id = id then updateRunStatusRow r st stats now else r) }

/-- Shallow embedding of `RunQueries.updateStressStats`: writes the four
stress counters and sets `total_calls` to their sum (score excluded). -/
def updateStressStats (s : Store) (id : String)
    (passed graceful crashed score : Nat) : Store :=
  { s with runs := s.runs.map (fun r =>
      if r.id = id then
        { r with
          stress_passed := passed
          stress_graceful := graceful
          stress_crashed := crashed
          stress_score := score
          total_calls := passed + graceful + crashed }
      else r) }

/-- Shallow embedding of `RunQueries.insertTraceEvent` at the row level:
appends a row with the next autoincrement id. -/
def insertEventRow (s : Store) (row : Nat → EventRow) : Store :=
  { s with
    events := s.events ++ [row s.nextEventId]
    nextEventId := s.nextEventId + 1 }

/-! ### SQL building for paginated reads

`listRuns` and `getRunEvents` build their SQL by string concatenation,
appending `LIMIT ?` only when a (JavaScript-truthy) limit is supplied and
`OFFSET ?` only when a truthy offset is supplied.  The clause sequence is
modelled as a list; `sqlitePrepare` models the documented SQLite grammar,
in which an `OFFSET` clause may appear only as part of a `LIMIT` clause,
so preparing a statement with `OFFSET` and no `LIMIT` fails. -/

inductive SqlClause
  | selectRuns
  | selectEvents
  | whereEq (col : String)
  | whereLike (col : String)
  | orderBy (expr : String)
  | limit
  | offset
  deriving DecidableEq, Repr

/-- JavaScript truthiness of an optional number (`0` is falsy). -/
def natTruthy : Option Nat → Bool
  | none => false
  | some n => !(n == 0)

/-- JavaScript truthiness of an optional string (the empty string is
falsy). -/
def strTruthy : Option String → Bool
  | none => false
  | some s => !s.isEmpty

/-- Filters accepted by `listRuns`. -/
structure RunFilters where
  agentId : Option String := none
  status : Option String := none
  runType : Option RunType := none
  target : Option String := none
  limit : Option Nat := none
  offset : Option Nat := none

/-- Clause sequence built by `RunQueries.listRuns`, in source append
order. -/
def listRunsSql (f : RunFilters) : List SqlClause :=
  [SqlClause.selectRuns]
    ++ (if strTruthy f.agentId then [SqlClause.whereEq "agent_id"] else [])
    ++ (if strTruthy f.status then [SqlClause.whereEq "status"] else [])
    ++ (if f.runType.isSome then [SqlClause.whereEq "run_type"] else [])
    ++ (if strTruthy f.target then [SqlClause.whereLike "target"] else [])
    ++ [SqlClause.orderBy "created_at DESC"]
    ++ (if natTruthy f.limit then [SqlClause.limit] else [])
    ++ (if natTruthy f.offset then [SqlClause.offset] else [])

/-- Clause sequence built by `RunQueries.getRunEvents`, in source append
order. -/
def getRunEventsSql (lim off : Option Nat) : List SqlClause :=
  [SqlClause.selectEvents, SqlClause.whereEq "run_id", SqlClause.orderBy "id ASC"]
    ++ (if natTruthy lim then [SqlClause.limit] else [])
    ++ (if natTruthy off then [SqlClause.offset] else [])

/-- SQLite statement preparation, modelled from the documented SQLite
grammar: `OFFSET expr` is syntactically part of the `LIMIT` clause, so a
statement whose clause sequence carries `OFFSET` without `LIMIT` fails to
prepare (better-sqlite3 throws), and every other clause sequence built by
the two query builders prepares successfully. -/
def sqlitePrepare (q : List SqlClause) : Except String Unit :=
  if q.contains SqlClause.offset && !(q.contains SqlClause.limit) then
    Except.error "SqliteError: near OFFSET: syntax error"
  else
    Except.ok ()

/-! ## Chaos engine (chaos/injector.ts)

The seeded PRNG is mulberry32.  All 32-bit operations are modelled on `Nat`
with explicit reduction modulo 2^32; `Math.imul` of two 32-bit values has
the same low 32 bits as the unsigned product, and the JavaScript signed
intermediate values have the same bit patterns as their unsigned
counterparts, so the unsigned model is exact.  The generator's fractional
output `u / 2^32` and all probabilities are rationals. -/

def pow32 : Nat := 4294967296

/-- Low 32 bits of a product, the bit pattern `Math.imul` computes. -/
def imul32 (a b : Nat) : Nat := (a * b) % pow32

/-- One step of mulberry32: returns the 32-bit numerator of the produced
fraction together with the updated generator state. -/
def mbNext (state : Nat) : Nat × Nat :=
  let s := (state + 0x6D2B79F5) % pow32
  let t1 := imul32 (Nat.xor s (s >>> 15)) (s ||| 1)
  let t2 := Nat.xor t1 ((t1 + imul32 (Nat.xor t1 (t1 >>> 7)) (t1 ||| 61)) % pow32)
  (Nat.xor t2 (t2 >>> 14), s)

/-- Fraction in `[0, 1)` produced from a mulberry32 numerator. -/
def mbFrac (u : Nat) : ℚ := (u : ℚ) / (pow32 : ℚ)

/-- SeededRandom.nextInt: `Math.floor(next() * (max - min + 1)) + min`. -/
def mbNextInt (u : Nat) (lo hi : ℚ) : ℚ :=
  (Int.floor (mbFrac u * (hi - lo + 1)) : ℚ) + lo

/-- Probabilistic value `{p, value | [min, max]}` from chaos/types.ts. -/
structure ProbValue where
  p : ℚ
  value : Option ℚ := none
  lo : Option ℚ := none
  hi : Option ℚ := none
  deriving DecidableEq, Repr

/-- A chaos rule field is either a plain number or a probabilistic value. -/
inductive NumOrProb
  | num (q : ℚ)
  | prob (pv : ProbValue)
  deriving DecidableEq, Repr

structure ChaosRule where
  delayMs : Option NumOrProb := none
  failRate : Option ℚ := none
  errorCode : Option Int := none
  errorMessage : Option String := none
  corruptResponse : Option Bool := none
  timeoutMs : Option NumOrProb := none
  deriving DecidableEq, Repr

structure ChaosConfig where
  seed : Option Nat := none
  chaosGlobal : Option ChaosRule := none
  tools : List (String × ChaosRule) := []
  deriving Repr

/-- Chaos-applied descriptor recorded in journal events. -/
structure ChaosApplied where
  delayMs : Option ℚ := none
  errorInjected : Option Bool := none
  responseCorrupted : Option Bool := none
  seed : Option Nat := none
  deriving DecidableEq, Repr

/-- Shallow merge of the per-tool rule over the global rule: a field of the
tool rule wins when present. -/
def mergeRule (g t : ChaosRule) : ChaosRule :=
  { delayMs := match t.delayMs with | some v => some v | none => g.delayMs
    failRate := match t.failRate with | some v => some v | none => g.failRate
    errorCode := match t.errorCode with | some v => some v | none => g.errorCode
    errorMessage := match t.errorMessage with | some v => some v | none => g.errorMessage
    corruptResponse := match t.corruptResponse with | some v => some v | none => g.corruptResponse
    timeoutMs := match t.timeoutMs with | some v => some v | none => g.timeoutMs }

/-- Injector state: configuration, recorded seed, and the private PRNG
state. -/
structure Injector where
  config : ChaosConfig
  seed : Nat
  rng : Nat
  deriving Repr

/-- Constructor of ChaosInjector: the seed comes from the configuration
when present, otherwise from the ambient clock (`Date.now()`), and the
generator starts at the seed. -/
def mkInjector (cfg : ChaosConfig) (now : Nat) : Injector :=
  let seed := cfg.seed.getD now
  { config := cfg, seed := seed, rng := seed }

/-- getRuleForTool: a (truthy) tool name with a per-tool rule shallow-merges
it over the global rule; otherwise the global rule (or the empty rule). -/
def getRuleForTool (cfg : ChaosConfig) (tool : Option String) : ChaosRule :=
  match tool with
  | some t =>
      if !t.isEmpty then
        match cfg.tools.lookup t with
        | some r => mergeRule (cfg.chaosGlobal.getD {}) r
        | none => cfg.chaosGlobal.getD {}
      else cfg.chaosGlobal.getD {}
  | none => cfg.chaosGlobal.getD {}

/-- resolveValue: a plain number resolves to itself without consuming
randomness; a probabilistic value draws once, yields nothing with
probability `1 - p`, and otherwise the fixed value or a uniform draw in
the range (consuming a second draw). -/
def resolveValue (inj : Injector) : Option NumOrProb → Option ℚ × Injector
  | none => (none, inj)
  | some (.num q) => (some q, inj)
  | some (.prob pv) =>
      let u := (mbNext inj.rng).1
      let inj' := { inj with rng := (mbNext inj.rng).2 }
      if mbFrac u > pv.p then (none, inj')
      else
        match pv.value with
        | some v => (some v, inj')
        | none =>
            match pv.lo, pv.hi with
            | some lo, some hi =>
                (some (mbNextInt (mbNext inj'.rng).1 lo hi),
                 { inj' with rng := (mbNext inj'.rng).2 })
            | _, _ => (none, inj')

/-- getDelay: the resolved `delayMs` of the rule, defaulting to zero. -/
def getDelay (inj : Injector) (tool : Option String) : ℚ × Injector :=
  let rule := getRuleForTool inj.config tool
  ((resolveValue inj rule.delayMs).1.getD 0, (resolveValue inj rule.delayMs).2)

/-- shouldFail: false without a positive failRate, else one draw compared
against the failRate. -/
def shouldFail (inj : Injector) (tool : Option String) : Bool × Injector :=
  let rule := getRuleForTool inj.config tool
  match rule.failRate with
  | none => (false, inj)
  | some rate =>
      if rate ≤ 0 then (false, inj)
      else
        (decide (mbFrac (mbNext inj.rng).1 < rate),
         { inj with rng := (mbNext inj.rng).2 })

/-- shouldCorruptResponse: the rule's flag, defaulting to false; consumes
no randomness. -/
def shouldCorruptResponse (inj : Injector) (tool : Option String) : Bool :=
  (getRuleForTool inj.config tool).corruptResponse.getD false

/-- applyChaos: builds the descriptor with the seed, then the delay (when
positive), the error-injection flag (when drawn), and the corruption flag
(when configured). -/
def applyChaos (inj : Injector) (tool : Option String) : ChaosApplied × Injector :=
  let delay := (getDelay inj tool).1
  let inj1 := (getDelay inj tool).2
  let fail := (shouldFail inj1 tool).1
  let inj2 := (shouldFail inj1 tool).2
  let corrupt := shouldCorruptResponse inj2 tool
  ({ seed := some inj.seed
     delayMs := if delay > 0 then some delay else none
     errorInjected := if fail then some true else none
     responseCorrupted := if corrupt then some true else none },
   inj2)

/-- One query against the chaos engine, in the vocabulary of the spec's
operations `delay`, `should_fail`, `should_corrupt`, `apply`. -/
inductive ChaosQuery
  | qdelay (tool : Option String)
  | qfail (tool : Option String)
  | qcorrupt (tool : Option String)
  | qapply (tool : Option String)
  deriving Repr

inductive ChaosOutput
  | odelay (ms : ℚ)
  | obool (b : Bool)
  | oapplied (a : ChaosApplied)
  deriving DecidableEq, Repr

/-- Dispatch one query, returning its output and the advanced injector. -/
def chaosStep (inj : Injector) : ChaosQuery → ChaosOutput × Injector
  | .qdelay t => (.odelay (getDelay inj t).1, (getDelay inj t).2)
  | .qfail t => (.obool (shouldFail inj t).1, (shouldFail inj t).2)
  | .qcorrupt t => (.obool (shouldCorruptResponse inj t), inj)
  | .qapply t => (.oapplied (applyChaos inj t).1, (applyChaos inj t).2)

/-- Run a sequence of queries, collecting the outputs in order. -/
def chaosRun (inj : Injector) : List ChaosQuery → List ChaosOutput
  | [] => []
  | q :: qs => (chaosStep inj q).1 :: chaosRun (chaosStep inj q).2 qs

/-! ## JSON values and serialization

Journal payloads are opaque JSON; the comparator and the journal row
mapping compare and store them through `JSON.stringify`.  The model keeps
JSON values structurally (object keys in insertion order) and serializes
them the way `JSON.stringify` does; two values serialize equally exactly
when the source's string comparison would succeed. -/

inductive Json
  | null
  | bool (b : Bool)
  | num (q : ℚ)
  | str (s : String)
  | arr (xs : List Json)
  | obj (fields : List (String × Json))

/-- JavaScript truthiness of a JSON value. -/
def jsTruthy : Json → Bool
  | .null => false
  | .bool b => b
  | .num q => !(q == 0)
  | .str s => !s.isEmpty
  | .arr _ => true
  | .obj _ => true

/-- Escaping of string contents under JSON.stringify (the characters our
payloads can contain). -/
def escapeJson (s : String) : String :=
  s.toList.foldl (fun acc c =>
    if c = '"' then acc ++ "\\\""
    else if c = '\\' then acc ++ "\\\\"
    else if c = '\n' then acc ++ "\\n"
    else if c = '\r' then acc ++ "\\r"
    else if c = '\t' then acc ++ "\\t"
    else acc.push c) ""

/-- Serialization of a JSON number (integers print without a decimal
point, as in JavaScript). -/
def numJson (q : ℚ) : String :=
  if q.den = 1 then toString q.num else toString q

mutual

def jsonStringify : Json → String
  | .null => "null"
  | .bool b => if b then "true" else "false"
  | .num q => numJson q
  | .str s => "\"" ++ escapeJson s ++ "\""
  | .arr xs => "[" ++ jsonStringifyList xs ++ "]"
  | .obj fs => "\x7b" ++ jsonStringifyFields fs ++ "\x7d"

def jsonStringifyList : List Json → String
  | [] => ""
  | [x] => jsonStringify x
  | x :: xs => jsonStringify x ++ "," ++ jsonStringifyList xs

def jsonStringifyFields : List (String × Json) → String
  | [] => ""
  | [(k, v)] => "\"" ++ escapeJson k ++ "\":" ++ jsonStringify v
  | (k, v) :: fs =>
      "\"" ++ escapeJson k ++ "\":" ++ jsonStringify v ++ "," ++ jsonStringifyFields fs

end

/-- JSON.stringify lifted to an optional value: `JSON.stringify(undefined)`
is `undefined`. -/
def stringifyOpt : Option Json → Option String
  | none => none
  | some j => some (jsonStringify j)

/-- Serialization of a chaos descriptor, fields in the insertion order used
by both creation sites (seed first, then delay, error flag, corruption
flag). -/
def chaosAppliedJson (c : ChaosApplied) : String :=
  let fields :=
    (match c.seed with | some n => [("seed", Json.num n)] | none => [])
      ++ (match c.delayMs with | some q => [("delayMs", Json.num q)] | none => [])
      ++ (match c.errorInjected with | some b => [("errorInjected", Json.bool b)] | none => [])
      ++ (match c.responseCorrupted with | some b => [("responseCorrupted", Json.bool b)] | none => [])
  jsonStringify (Json.obj fields)

/-! ## Trace events and the recorder (tracer/types.ts, tracer/recorder.ts)

Request ids are numbers or strings; the correlation key is the stringified
id.  Timestamps and wall-clock instants are an abstract `Nat` clock. -/

inductive RpcId
  | num (n : Int)
  | str (s : String)
  deriving DecidableEq, Repr

/-- The stringified id `String(id)` used as correlation-map key. -/
def RpcId.asKey : RpcId → String
  | .num n => toString n
  | .str s => s

inductive TraceEvent
  | rpc_request (id : Option RpcId) (method : String) (params : Option Json) (ts : Nat)
  | rpc_response (id : Option RpcId) (result : Option Json) (error : Option Json)
      (ts : Nat) (latencyMs : Option Nat)
  | tool_call (tool : String) (args : Option Json) (ts : Nat) (callId : String)
  | tool_result (callId : String) (ok : Bool) (result : Option Json)
      (error : Option Json) (ts : Nat) (latencyMs : Nat) (chaos : Option ChaosApplied)
  | session_start (ts : Nat)
  | session_end (ts : Nat) (totalCalls : Nat) (totalErrors : Nat)
  | stress_mutation (tool : String) (mutationType : String) (description : String)
      (input : Json) (outcome : StressOutcome) (result : Option Json)
      (error : Option Json) (latencyMs : Nat) (ts : Nat)

/-- The `event_type` discriminator stored in the `trace_events` table. -/
def TraceEvent.kind : TraceEvent → String
  | .rpc_request .. => "rpc_request"
  | .rpc_response .. => "rpc_response"
  | .tool_call .. => "tool_call"
  | .tool_result .. => "tool_result"
  | .session_start .. => "session_start"
  | .session_end .. => "session_end"
  | .stress_mutation .. => "stress_mutation"

/-- Name of a stress outcome as serialized into the row payload. -/
def StressOutcome.name : StressOutcome → String
  | .pass => "pass"
  | .graceful_fail => "graceful_fail"
  | .crash_or_hang => "crash_or_hang"

/-- Shallow embedding of `RunQueries.insertTraceEvent`: maps a trace event
onto the row columns.  A truthiness test guards each serialized payload
(`event.params ? JSON.stringify(event.params) : null`), and the chaos
column is populated only for `tool_result` events. -/
def eventToRow (runId : String) (e : TraceEvent) (rowId : Nat) : EventRow :=
  let trunc : Option Json → Option String := fun p =>
    match p with
    | some j => if jsTruthy j then some (jsonStringify j) else none
    | none => none
  match e with
  | .rpc_request _ m p ts =>
      { id := rowId, run_id := runId, event_type := "rpc_request",
        method := some m, params_json := trunc p, timestamp := ts }
  | .rpc_response _ r er ts lat =>
      { id := rowId, run_id := runId, event_type := "rpc_response",
        result_json := trunc r, error_json := trunc er, latency_ms := lat,
        timestamp := ts }
  | .tool_call tool args ts _ =>
      { id := rowId, run_id := runId, event_type := "tool_call",
        tool_name := some tool, params_json := trunc args, timestamp := ts }
  | .tool_result _ _ r er ts lat chaos =>
      { id := rowId, run_id := runId, event_type := "tool_result",
        result_json := trunc r, error_json := trunc er, latency_ms := some lat,
        chaos_applied := match chaos with
          | some c => some (chaosAppliedJson c)
          | none => none,
        timestamp := ts }
  | .session_start ts =>
      { id := rowId, run_id := runId, event_type := "session_start", timestamp := ts }
  | .session_end ts _ _ =>
      { id := rowId, run_id := runId, event_type := "session_end", timestamp := ts }
  | .stress_mutation tool mty desc inp outcome r er lat ts =>
      { id := rowId, run_id := runId, event_type := "stress_mutation",
        tool_name := some tool,
        params_json := some (jsonStringify (Json.obj
          [("mutation", Json.obj
             [("type", Json.str mty), ("description", Json.str desc),
              ("input", inp)]),
           ("outcome", Json.str outcome.name)])),
        result_json := trunc r, error_json := trunc er, latency_ms := some lat,
        timestamp := ts }

/-- Store-level insert: append the row with the next autoincrement id. -/
def insertTraceEvent (s : Store) (runId : String) (e : TraceEvent) : Store :=
  insertEventRow s (eventToRow runId e)

/-- In-flight correlation entry: wall-clock start and optional tool name. -/
structure Pending where
  startTime : Nat
  tool : Option String := none
  deriving DecidableEq, Repr

/-- Recorder state (TraceRecorder): the correlation map plus the running
counters. -/
structure Recorder where
  pendingCalls : List (String × Pending) := []
  callCount : Nat := 0
  errorCount : Nat := 0
  deriving Repr

/-- Map.set semantics on the association list: overwrite in place, else
append. -/
def mapSet (m : List (String × Pending)) (k : String) (v : Pending) :
    List (String × Pending) :=
  if m.any (fun p => p.1 = k) then
    m.map (fun p => if p.1 = k then (k, v) else p)
  else m ++ [(k, v)]

/-- Map.delete semantics. -/
def mapDelete (m : List (String × Pending)) (k : String) :
    List (String × Pending) :=
  m.filter (fun p => ¬ p.1 = k)

/-- Field access `params?.name`, when it is a string (the shape the tool
protocol gives it). -/
def paramsName : Option Json → Option String
  | some (.obj fs) =>
      match fs.lookup "name" with
      | some (.str s) => some s
      | _ => none
  | _ => none

/-- Field access `params?.arguments`. -/
def paramsArguments : Option Json → Option Json
  | some (.obj fs) => fs.lookup "arguments"
  | _ => none

/-- Shallow embedding of `TraceRecorder.recordRpcRequest`: journals the
`rpc_request`, registers the pending call, and for a `tools/call` with a
truthy tool name also journals a `tool_call`. -/
def recordRpcRequest (rec : Recorder) (now : Nat) (id : Option RpcId)
    (method : String) (params : Option Json) : Recorder × List TraceEvent :=
  let ev := TraceEvent.rpc_request id method params now
  match id with
  | none => (rec, [ev])
  | some i =>
      let key := i.asKey
      let withPending := mapSet rec.pendingCalls key { startTime := now }
      if method = "tools/call" then
        match paramsName params with
        | some tool =>
            if !tool.isEmpty then
              let pc := mapSet withPending key { startTime := now, tool := some tool }
              ({ rec with pendingCalls := pc },
               [ev, TraceEvent.tool_call tool (paramsArguments params) now key])
            else ({ rec with pendingCalls := withPending }, [ev])
        | none => ({ rec with pendingCalls := withPending }, [ev])
      else ({ rec with pendingCalls := withPending }, [ev])

/-- Shallow embedding of `TraceRecorder.recordRpcResponse`: a matched id
computes a latency, journals a `tool_result` first when the pending entry
carried a tool name, and removes the entry; the `rpc_response` is always
journaled, with no latency when the id is absent or was not in flight. -/
def recordRpcResponse (rec : Recorder) (now : Nat) (id : Option RpcId)
    (result : Option Json) (error : Option Json) (chaos : Option ChaosApplied) :
    Recorder × List TraceEvent :=
  match id with
  | none => (rec, [TraceEvent.rpc_response id result error now none])
  | some i =>
      let key := i.asKey
      match rec.pendingCalls.lookup key with
      | none => (rec, [TraceEvent.rpc_response id result error now none])
      | some pending =>
          let latency := now - pending.startTime
          let errTruthy := match error with
            | some e => jsTruthy e
            | none => false
          match pending.tool with
          | some _ =>
              ({ rec with
                  pendingCalls := mapDelete rec.pendingCalls key
                  callCount := rec.callCount + 1
                  errorCount := rec.errorCount + (if errTruthy then 1 else 0) },
               [TraceEvent.tool_result key (!errTruthy) result error now latency chaos,
                TraceEvent.rpc_response id result error now (some latency)])
          | none =>
              ({ rec with pendingCalls := mapDelete rec.pendingCalls key },
               [TraceEvent.rpc_response id result error now (some latency)])

/-! ## Stdio proxy line handlers (commands/proxy.ts)

A line is either unparseable (forwarded verbatim, nothing journaled) or a
parsed JSON-RPC object carried together with its raw text.  Handler
results are effect lists in execution order: journal writes happen before
the chaos sleep, which happens before forwarding. -/

structure ParsedMsg where
  id : Option RpcId := none
  method : Option String := none
  params : Option Json := none
  result : Option Json := none
  error : Option Json := none

inductive ClientLine
  | raw (text : String)
  | json (text : String) (m : ParsedMsg)

inductive ProxyEffect
  | journal (e : TraceEvent)
  | sleep (ms : ℚ)
  | forwardToServer (line : String)
  | forwardToClient (line : String)
  | setRunStatus (st : RunStatus)

/-- Shallow embedding of the proxy's stdin line handler: record the request
when a method is present, ask the chaos engine for a delay on `tools/call`
and sleep when positive, then forward the raw line to the tool server. -/
def handleClientLine (inj : Option Injector) (rec : Recorder) (now : Nat) :
    ClientLine → Recorder × Option Injector × List ProxyEffect
  | .raw s => (rec, inj, [.forwardToServer s])
  | .json s m =>
      let recEvs :=
        match m.method with
        | some meth => recordRpcRequest rec now m.id meth m.params
        | none => (rec, [])
      let sleepInj :=
        match inj with
        | some i =>
            if m.method = some "tools/call" then
              ((if (getDelay i (paramsName m.params)).1 > 0 then
                  [ProxyEffect.sleep (getDelay i (paramsName m.params)).1] else []),
               some (getDelay i (paramsName m.params)).2)
            else ([], some i)
        | none => ([], none)
      (recEvs.1, sleepInj.2,
       recEvs.2.map ProxyEffect.journal ++ sleepInj.1 ++ [.forwardToServer s])

/-- Shallow embedding of the proxy's tool-server stdout line handler: when
the parsed object carries an id, journal the response (the chaos descriptor
passed along is only the engine seed); the raw line is always forwarded to
the client, and the run status is never touched. -/
def handleServerLine (inj : Option Injector) (rec : Recorder) (now : Nat) :
    ClientLine → Recorder × List ProxyEffect
  | .raw s => (rec, [.forwardToClient s])
  | .json s m =>
      if m.id.isSome then
        let chaosInfo := inj.map (fun i => ({ seed := some i.seed } : ChaosApplied))
        ((recordRpcResponse rec now m.id m.result m.error chaosInfo).1,
         (recordRpcResponse rec now m.id m.result m.error chaosInfo).2.map
            ProxyEffect.journal ++ [.forwardToClient s])
      else (rec, [.forwardToClient s])

/-- Shallow embedding of `TraceRecorder.end`: journal the `session_end` and
transition the run to completed with the accumulated counters. -/
def recorderEnd (rec : Recorder) (now : Nat) : List ProxyEffect :=
  [.journal (TraceEvent.session_end now rec.callCount rec.errorCount),
   .setRunStatus .completed]

/-! ## Command-string tokenizer (parseCommand)

Contiguous non-whitespace runs are tokens; double or single quotes delimit
literal tokens; the first token is the executable. -/

structure CmdParse where
  parts : List String
  current : String
  inQuote : Bool
  quoteChar : Char

/-- One character of the quote-aware splitter. -/
def parseStep (st : CmdParse) (c : Char) : CmdParse :=
  if st.inQuote then
    if c = st.quoteChar then { st with inQuote := false }
    else { st with current := st.current.push c }
  else if c = '"' ∨ c = '\'' then
    { st with inQuote := true, quoteChar := c }
  else if c = ' ' ∨ c = '\t' then
    if !st.current.isEmpty then
      { st with parts := st.parts ++ [st.current], current := "" }
    else st
  else { st with current := st.current.push c }

/-- Shallow embedding of `parseCommand(target)`: the command (when any
token was produced) and the argument tokens. -/
def parseCommand (target : String) : Option String × List String :=
  let st := target.toList.foldl parseStep ⟨[], "", false, ' '⟩
  let parts := if !st.current.isEmpty then st.parts ++ [st.current] else st.parts
  (parts.head?, parts.tail)

/-! ## Mutation generator (stress/schema-mutator.ts) -/

/-- JSON-Schema-shaped tool input declaration.  Absent `properties` and
`required` are the empty list (the source defaults them with `?? {}` and
`?? []`). -/
inductive JsonSchema where
  | mk (type : String) (properties : List (String × JsonSchema))
       (required : List String) (items : Option JsonSchema)

def JsonSchema.type : JsonSchema → String
  | .mk t _ _ _ => t

def JsonSchema.properties : JsonSchema → List (String × JsonSchema)
  | .mk _ ps _ _ => ps

def JsonSchema.required : JsonSchema → List String
  | .mk _ _ r _ => r

inductive MutationType
  | missing_required
  | wrong_type
  | null_value
  | empty_value
  | boundary
  | extra_field
  | valid
  deriving DecidableEq, Repr

def MutationType.name : MutationType → String
  | .missing_required => "missing_required"
  | .wrong_type => "wrong_type"
  | .null_value => "null_value"
  | .empty_value => "empty_value"
  | .boundary => "boundary"
  | .extra_field => "extra_field"
  | .valid => "valid"

structure Mutation where
  type : MutationType
  field : Option String := none
  input : Json
  description : String

/-- Object spread `{...obj, k: v}`: an existing key keeps its position and
takes the new value; a new key is appended. -/
def objSet (fs : List (String × Json)) (k : String) (v : Json) :
    List (String × Json) :=
  if fs.any (fun p => p.1 = k) then
    fs.map (fun p => if p.1 = k then (k, v) else p)
  else fs ++ [(k, v)]

/-- The `delete` operator on an object copy. -/
def objDel (fs : List (String × Json)) (k : String) : List (String × Json) :=
  fs.filter (fun p => ¬ p.1 = k)

/-- getDefaultValue: the type-default fillers of the valid control input. -/
def getDefaultValue (t : String) : Json :=
  if t = "string" then .str "test_value"
  else if t = "number" ∨ t = "integer" then .num 42
  else if t = "boolean" then .bool true
  else if t = "array" then .arr []
  else if t = "object" then .obj []
  else .null

/-- getWrongTypeValue: a canonical foreign value for each declared type. -/
def getWrongTypeValue (t : String) : Json :=
  if t = "string" then .num 12345
  else if t = "number" ∨ t = "integer" then .str "not_a_number"
  else if t = "boolean" then .str "not_a_boolean"
  else if t = "array" then .str "not_an_array"
  else if t = "object" then .str "not_an_object"
  else .obj []

/-- The `typeof` of the wrong-type value, as interpolated into the
mutation description. -/
def typeofJson : Json → String
  | .null => "object"
  | .bool _ => "boolean"
  | .num _ => "number"
  | .str _ => "string"
  | .arr _ => "object"
  | .obj _ => "object"

/-- generateValidInput: each declared property filled with its type
default. -/
def generateValidInput (schema : JsonSchema) : List (String × Json) :=
  schema.properties.map (fun p => (p.1, getDefaultValue p.2.type))

/-- The fixed 10,000-character x-repeat boundary string. -/
def longX : String := String.mk (List.replicate 10000 'x')

/-- Shallow embedding of `generateMutations(schema)`: the valid control,
missing-required variants, wrong-type and null variants per property,
empty and boundary variants per string/array/numeric property, and the
final extra-field variant, in source order. -/
def generateMutations (schema : JsonSchema) : List Mutation :=
  let properties := schema.properties
  let required := schema.required
  let validInput := generateValidInput schema
  [({ type := .valid, input := .obj validInput,
      description := "Valid input (control case)" } : Mutation)]
  ++ required.map (fun f =>
      { type := .missing_required, field := some f,
        input := .obj (objDel validInput f),
        description := "Missing required field: " ++ f })
  ++ properties.map (fun p =>
      let w := getWrongTypeValue p.2.type
      { type := .wrong_type, field := some p.1,
        input := .obj (objSet validInput p.1 w),
        description := "Wrong type for " ++ p.1 ++ ": expected " ++ p.2.type
          ++ ", got " ++ typeofJson w })
  ++ properties.map (fun p =>
      { type := .null_value, field := some p.1,
        input := .obj (objSet validInput p.1 .null),
        description := "Null value for field: " ++ p.1 })
  ++ properties.flatMap (fun p =>
      if p.2.type = "string" then
        [{ type := .empty_value, field := some p.1,
           input := .obj (objSet validInput p.1 (.str "")),
           description := "Empty string for field: " ++ p.1 }]
      else if p.2.type = "array" then
        [{ type := .empty_value, field := some p.1,
           input := .obj (objSet validInput p.1 (.arr [])),
           description := "Empty array for field: " ++ p.1 }]
      else [])
  ++ properties.flatMap (fun p =>
      if p.2.type = "string" then
        [{ type := .boundary, field := some p.1,
           input := .obj (objSet validInput p.1 (.str longX)),
           description := "Very long string for field: " ++ p.1 },
         { type := .boundary, field := some p.1,
           input := .obj (objSet validInput p.1 (.str "../../../etc/passwd")),
           description := "Path traversal attempt for field: " ++ p.1 }]
      else if p.2.type = "number" ∨ p.2.type = "integer" then
        [{ type := .boundary, field := some p.1,
           input := .obj (objSet validInput p.1 (.num (-1))),
           description := "Negative number for field: " ++ p.1 },
         { type := .boundary, field := some p.1,
           input := .obj (objSet validInput p.1 (.num 9007199254740991)),
           description := "Max safe integer for field: " ++ p.1 }]
      else [])
  ++ [({ type := .extra_field, field := some "_unknown_field",
         input := .obj (objSet validInput "_unknown_field" (.str "unexpected")),
         description := "Extra unknown field added" } : Mutation)]

/-! ## Stress runner (the stress router's runStressTests)

The tool-server subprocess is abstracted by an oracle `respond` giving
each probe's outcome by message id (`sendRequest` always resolves: with a
result, an error message, or the timeout sentinel).  The `initialize` and
`tools/list` handshake consumes message ids 1 and 2; `tools` stands for
the parsed `toolsResult?.tools ?? []`.  Probes run strictly
sequentially. -/

structure ProbeRes where
  result : Option Json := none
  error : Option String := none
  timedOut : Bool := false

structure ToolDecl where
  name : String
  inputSchema : Option JsonSchema := none

/-- The error payload journaled with a probe:
`response.error ? { message: response.error } : undefined`. -/
def probeErrorJson (e : Option String) : Option Json :=
  match e with
  | some msg => if !msg.isEmpty then some (.obj [("message", .str msg)]) else none
  | none => none

/-- Probe loop over one tool's mutations: each probe consumes one message
id, is classified, journaled as a `stress_mutation` event, and bumps
exactly one of the three counters.  Returns the store, the counter
increments, and the next message id. -/
def outcomeInc (outcome : StressOutcome) : Nat × Nat × Nat :=
  if outcome = .pass then (1, 0, 0)
  else if outcome = .graceful_fail then (0, 1, 0)
  else (0, 0, 1)

def sweepMuts (runId : String) (respond : Nat → ProbeRes) (tool : String)
    (now : Nat) : List Mutation → Store → Nat → Store × (Nat × Nat × Nat) × Nat
  | [], st, mid => (st, (0, 0, 0), mid)
  | m :: ms, st, mid =>
      let mid' := mid + 1
      let r := respond mid'
      let outcome := classifyOutcome r.error (r.result.map fun _ => Unit.unit) r.timedOut
      let ev := TraceEvent.stress_mutation tool m.type.name m.description m.input
        outcome r.result (probeErrorJson r.error) 0 now
      let st1 := insertTraceEvent st runId ev
      let res := sweepMuts runId respond tool now ms st1 mid'
      let inc := outcomeInc outcome
      (res.1,
       (res.2.1.1 + inc.1, res.2.1.2.1 + inc.2.1, res.2.1.2.2 + inc.2.2),
       res.2.2)

/-- Sweep over the tool list: tools without a declared input schema are
skipped; otherwise their mutation matrix is probed in order. -/
def sweepTools (runId : String) (respond : Nat → ProbeRes) (now : Nat) :
    List ToolDecl → Store → Nat → Store × (Nat × Nat × Nat) × Nat
  | [], st, mid => (st, (0, 0, 0), mid)
  | t :: ts, st, mid =>
      match t.inputSchema with
      | none => sweepTools runId respond now ts st mid
      | some schema =>
          let resM := sweepMuts runId respond t.name now (generateMutations schema) st mid
          let resT := sweepTools runId respond now ts resM.1 resM.2.2
          (resT.1,
           (resM.2.1.1 + resT.2.1.1, resM.2.1.2.1 + resT.2.1.2.1,
            resM.2.1.2.2 + resT.2.1.2.2),
           resT.2.2)

/-- JavaScript Math.round on a nonnegative rational. -/
def jsRound (q : ℚ) : Nat := (Int.floor (q + 1 / 2)).toNat

/-- Shallow embedding of `runStressTests`: a missing agent or an empty
parsed command fails the run; otherwise the run is marked running, the
sweep executes, the stress stats (with the reliability score) are written,
and the run completes. -/
def runStressTests (s : Store) (agent : Option Agent) (runId : String)
    (tools : List ToolDecl) (respond : Nat → ProbeRes) (now : Nat) : Store :=
  match agent with
  | none => updateRunStatus s runId .failed none now
  | some ag =>
      match (parseCommand ag.target).1 with
      | none => updateRunStatus s runId .failed none now
      | some _ =>
          let s0 := updateRunStatus s runId .running none now
          let res := sweepTools runId respond now tools s0 2
          let p := res.2.1.1
          let g := res.2.1.2.1
          let c := res.2.1.2.2
          let total := p + g + c
          let goodOutcomes := p + g
          let score :=
            if total > 0 then jsRound ((goodOutcomes : ℚ) / (total : ℚ) * 100) else 0
          let s2 := updateStressStats res.1 runId p g c score
          updateRunStatus s2 runId .completed none now

/-! ## Diff engine (diff/comparator.ts)

Each run is reduced to its ordered list of calls; payload comparisons go
through `JSON.stringify`.  The latency change percent is a JavaScript
number that can be infinite (zero baseline) or NaN (both zero), modelled
explicitly. -/

structure TraceCall where
  id : Nat
  method : String
  params : Option Json := none
  result : Option Json := none
  error : Option Json := none
  latencyMs : ℚ := 0

structure Trace where
  calls : List TraceCall

/-- groupByMethod: a JavaScript Map built by insertion keeps keys in
first-appearance order and per-key call order. -/
def groupByMethod (calls : List TraceCall) : List (String × List TraceCall) :=
  calls.foldl (fun m c =>
    if m.any (fun p => p.1 = c.method) then
      m.map (fun p => if p.1 = c.method then (p.1, p.2 ++ [c]) else p)
    else m ++ [(c.method, [c])]) []

/-- JavaScript number results of the latency-percent computation. -/
inductive JsNum
  | val (q : ℚ)
  | posInf
  | negInf
  | nan
  deriving DecidableEq, Repr

/-- The computation `((cur - base) / base) * 100` under JavaScript
division: a zero baseline yields an infinity (or NaN when the current
latency is zero too). -/
def latencyChangePct (base cur : ℚ) : JsNum :=
  if base = 0 then
    if cur > 0 then .posInf else if cur < 0 then .negInf else .nan
  else .val ((cur - base) / base * 100)

/-- Math.abs(changePercent) > 20 on a JavaScript number (false for NaN). -/
def absGt20 : JsNum → Bool
  | .val q => decide (|q| > 20)
  | .posInf => true
  | .negInf => true
  | .nan => false

structure CallDiff where
  method : String
  params : Option Json := none
  index : Nat

structure CallChange where
  method : String
  index : Nat
  baselineParams : Option Json := none
  currentParams : Option Json := none
  baselineResult : Option Json := none
  currentResult : Option Json := none
  paramsDiff : Option String := none
  resultDiff : Option String := none

structure LatencyChange where
  method : String
  index : Nat
  baselineLatency : ℚ
  currentLatency : ℚ
  changePercent : JsNum

structure TraceComparison where
  baselineCalls : Nat
  currentCalls : Nat
  added : List CallDiff
  removed : List CallDiff
  changed : List CallChange
  latencyChanges : List LatencyChange

/-- Entries the comparator's per-method loop body pushes for one baseline
method: surplus added/removed beyond the common length, changed entries
where serialized params or results differ, and latency entries where the
pairwise change exceeds 20 percent in magnitude. -/
def methodContrib (cBy : List (String × List TraceCall))
    (pair : String × List TraceCall) :
    List CallDiff × List CallDiff × List CallChange × List LatencyChange :=
  match cBy.lookup pair.1 with
  | none => ([], [], [], [])
  | some curCalls =>
      let bCalls := pair.2
      let addNew := if bCalls.length < curCalls.length then
          (curCalls.drop bCalls.length).map (fun c =>
            ({ method := pair.1, params := c.params, index := c.id } : CallDiff))
        else []
      let remNew := if curCalls.length < bCalls.length then
          (bCalls.drop curCalls.length).map (fun c =>
            ({ method := pair.1, params := c.params, index := c.id } : CallDiff))
        else []
      let zipped := (bCalls.zip curCalls).enum
      let chNew := zipped.filterMap (fun iz =>
        let pe := stringifyOpt iz.2.1.params == stringifyOpt iz.2.2.params
        let re := stringifyOpt iz.2.1.result == stringifyOpt iz.2.2.result
        if pe && re then none
        else some ({ method := pair.1, index := iz.1,
                     baselineParams := iz.2.1.params, currentParams := iz.2.2.params,
                     baselineResult := iz.2.1.result, currentResult := iz.2.2.result,
                     paramsDiff := if pe then none else some "Parameters changed",
                     resultDiff := if re then none else some "Result changed" } : CallChange))
      let latNew := zipped.filterMap (fun iz =>
        let pct := latencyChangePct iz.2.1.latencyMs iz.2.2.latencyMs
        if absGt20 pct then
          some ({ method := pair.1, index := iz.1,
                  baselineLatency := iz.2.1.latencyMs,
                  currentLatency := iz.2.2.latencyMs,
                  changePercent := pct } : LatencyChange)
        else none)
      (addNew, remNew, chNew, latNew)

/-- Componentwise append of the four accumulated entry lists. -/
def app4 (x y : List CallDiff × List CallDiff × List CallChange × List LatencyChange) :
    List CallDiff × List CallDiff × List CallChange × List LatencyChange :=
  (x.1 ++ y.1, x.2.1 ++ y.2.1, x.2.2.1 ++ y.2.2.1, x.2.2.2 ++ y.2.2.2)

/-- Shallow embedding of `compareTraces(baseline, current)`: calls of
methods present on exactly one side become wholesale added/removed
entries; methods on both sides contribute through the per-method loop
body. -/
def compareTraces (baseline current : Trace) : TraceComparison :=
  let bBy := groupByMethod baseline.calls
  let cBy := groupByMethod current.calls
  let added1 := (cBy.filter (fun p => !(bBy.any (fun q => q.1 = p.1)))).flatMap
      (fun p => p.2.map (fun c =>
        ({ method := p.1, params := c.params, index := c.id } : CallDiff)))
  let removed1 := (bBy.filter (fun p => !(cBy.any (fun q => q.1 = p.1)))).flatMap
      (fun p => p.2.map (fun c =>
        ({ method := p.1, params := c.params, index := c.id } : CallDiff)))
  let acc := bBy.foldl (fun acc pair => app4 acc (methodContrib cBy pair))
      ([], [], [], [])
  { baselineCalls := baseline.calls.length
    currentCalls := current.calls.length
    added := added1 ++ acc.1
    removed := removed1 ++ acc.2.1
    changed := acc.2.2.1
    latencyChanges := acc.2.2.2 }

/-- Specification-style reading of the changed entries: for each tool
present on both sides, zip the two call lists and keep an entry at an
index exactly when the serialized argument payloads or the serialized
result payloads differ there. -/
def changedSpec (baseline current : Trace) : List CallChange :=
  (groupByMethod baseline.calls).flatMap (fun pair =>
    match (groupByMethod current.calls).lookup pair.1 with
    | none => []
    | some curCalls =>
        ((pair.2.zip curCalls).enum).filterMap (fun iz =>
          let pe := stringifyOpt iz.2.1.params == stringifyOpt iz.2.2.params
          let re := stringifyOpt iz.2.1.result == stringifyOpt iz.2.2.result
          if pe && re then none
          else some ({ method := pair.1, index := iz.1,
                       baselineParams := iz.2.1.params, currentParams := iz.2.2.params,
                       baselineResult := iz.2.1.result, currentResult := iz.2.2.result,
                       paramsDiff := if pe then none else some "Parameters changed",
                       resultDiff := if re then none else some "Result changed" } : CallChange)))

/-- Specification-style reading of the added entries: every call of a tool
absent from the baseline, then for each shared tool the current-side
surplus beyond `min(|A|,|B|)`. -/
def addedSpec (baseline current : Trace) : List CallDiff :=
  let bBy := groupByMethod baseline.calls
  let cBy := groupByMethod current.calls
  (cBy.filter (fun p => !(bBy.any (fun q => q.1 = p.1)))).flatMap
      (fun p => p.2.map (fun c =>
        ({ method := p.1, params := c.params, index := c.id } : CallDiff)))
    ++ bBy.flatMap (fun pair =>
      match cBy.lookup pair.1 with
      | none => []
      | some curCalls =>
          (curCalls.drop (min pair.2.length curCalls.length)).map (fun c =>
            ({ method := pair.1, params := c.params, index := c.id } : CallDiff)))

/-- Specification-style reading of the removed entries (mirror image of
`addedSpec`). -/
def removedSpec (baseline current : Trace) : List CallDiff :=
  let bBy := groupByMethod baseline.calls
  let cBy := groupByMethod current.calls
  (bBy.filter (fun p => !(cBy.any (fun q => q.1 = p.1)))).flatMap
      (fun p => p.2.map (fun c =>
        ({ method := p.1, params := c.params, index := c.id } : CallDiff)))
    ++ bBy.flatMap (fun pair =>
      match cBy.lookup pair.1 with
      | none => []
      | some curCalls =>
          (pair.2.drop (min pair.2.length curCalls.length)).map (fun c =>
            ({ method := pair.1, params := c.params, index := c.id } : CallDiff)))

/-- Pairwise reading of the latency entries: for each shared tool, an
entry per zipped index whose pairwise change exceeds 20 percent in
magnitude. -/
def latencyChangesSpec (baseline current : Trace) : List LatencyChange :=
  (groupByMethod baseline.calls).flatMap (fun pair =>
    match (groupByMethod current.calls).lookup pair.1 with
    | none => []
    | some curCalls =>
        ((pair.2.zip curCalls).enum).filterMap (fun iz =>
          let pct := latencyChangePct iz.2.1.latencyMs iz.2.2.latencyMs
          if absGt20 pct then
            some ({ method := pair.1, index := iz.1,
                    baselineLatency := iz.2.1.latencyMs,
                    currentLatency := iz.2.2.latencyMs,
                    changePercent := pct } : LatencyChange)
          else none))

/-- Per-tool mean latency of a call list, as the specification's
latency rule words it. -/
def meanLatency (calls : List TraceCall) : ℚ :=
  (calls.map (fun c => c.latencyMs)).sum / (calls.length : ℚ)

/-- The specification's mean-based emission rule for one tool present on
both sides: emit exactly when the relative change between the two
per-tool means exceeds 20 percent in magnitude. -/
def specMeanEmit (bCalls cCalls : List TraceCall) : Bool :=
  absGt20 (latencyChangePct (meanLatency bCalls) (meanLatency cCalls))

/-! ## Claim theorems -/

/-- C5: for every probe result, the outcome classifier applies the fixed
ordered rule set — timed out first (`crash_or_hang`), then no error
(`pass`, regardless of response contents; an absent or empty error message
counts as no error), then the validation vocabulary (`graceful_fail`), then
the crash vocabulary (`crash_or_hang`), else `graceful_fail`. -/
theorem c5_classifier_rules (e : Option String) (r : Option Unit) (t : Bool) :
    classifyOutcome e r t = specClassifyOutcome e r t := by
  have h := errFalsy_iff e
  by_cases ht : t = true
  · simp [classifyOutcome, specClassifyOutcome, ht]
  · cases hb : errFalsy e with
    | true =>
        simp [classifyOutcome, specClassifyOutcome, ht, hb, h.mp hb]
    | false =>
        have hne : ¬(e = none ∨ e = some "") := by
          intro hc
          have := h.mpr hc
          rw [hb] at this
          cases this
        simp [classifyOutcome, specClassifyOutcome, ht, hb, hne]

/-- A run already at the terminal status `completed`, the concrete input of
the C2 counterexample. -/
def exRunCompleted : Run :=
  { id := "r1", agent_id := none, target := "node server.js", status := .completed }

/-- C2 counterexample: `update_run_status` does not reject the backwards
transition completed → running; the stored status changes. -/
theorem c2_status_counterexample :
    exRunCompleted.status = .completed ∧
    (updateRunStatusRow exRunCompleted .running none 7).status = .running :=
  ⟨rfl, rfl⟩

/-- C2 amended: `update_run_status` applies the requested status
unconditionally — it never inspects the stored status, so backwards
transitions are applied; `started_at` is set exactly on a transition to
running and `ended_at` exactly on a transition to completed or failed. -/
theorem c2_update_run_status_amended (r : Run) (st : RunStatus)
    (stats : Option UpdateStats) (now : Nat) :
    (updateRunStatusRow r st stats now).status = st ∧
    (updateRunStatusRow r st stats now).started_at
      = (if st = .running then some now else r.started_at) ∧
    (updateRunStatusRow r st stats now).ended_at
      = (if st = .completed ∨ st = .failed then some now else r.ended_at) :=
  ⟨rfl, rfl, rfl⟩

/-- C10: supplying an offset without a (truthy) limit builds SQL ending in
an `OFFSET` clause with no `LIMIT` clause, which SQLite rejects, for both
`getRunEvents` and `listRuns`; pagination by offset prepares successfully
exactly when a positive limit is also supplied. -/
theorem c10_offset_requires_limit :
    (getRunEventsSql none (some 10)).contains SqlClause.offset = true ∧
    (getRunEventsSql none (some 10)).contains SqlClause.limit = false ∧
    sqlitePrepare (getRunEventsSql none (some 10))
      = Except.error "SqliteError: near OFFSET: syntax error" ∧
    sqlitePrepare (listRunsSql { offset := some 10 })
      = Except.error "SqliteError: near OFFSET: syntax error" ∧
    (∀ lim off : Option Nat, natTruthy lim = true →
      sqlitePrepare (getRunEventsSql lim off) = Except.ok ()) ∧
    (∀ lim off : Option Nat, natTruthy off = true → natTruthy lim = false →
      sqlitePrepare (getRunEventsSql lim off)
        = Except.error "SqliteError: near OFFSET: syntax error") := by
  refine ⟨by decide, by decide, rfl, rfl, ?_, ?_⟩
  · intro lim off hlim
    cases hoff : natTruthy off <;>
      simp [getRunEventsSql, sqlitePrepare, hlim, hoff]
  · intro lim off hoff hlim
    simp [getRunEventsSql, sqlitePrepare, hlim, hoff]

/-- C10 witness: with a positive limit the paginated read prepares; with an
offset and no limit it throws. -/
theorem c10_offset_requires_limit_witness :
    sqlitePrepare (getRunEventsSql (some 5) (some 10)) = Except.ok () ∧
    sqlitePrepare (getRunEventsSql none (some 10))
      = Except.error "SqliteError: near OFFSET: syntax error" :=
  ⟨c10_offset_requires_limit.2.2.2.2.1 (some 5) (some 10) (by decide),
   c10_offset_requires_limit.2.2.2.2.2 none (some 10) (by decide) (by decide)⟩

/-- C9: with a fixed seed in the configuration, the chaos engine is a
deterministic function of the query sequence — two executions constructed
at different ambient clock values produce identical output sequences
(including identical chaos-applied descriptors) for the same queries. -/
theorem c9_chaos_determinism (cfg : ChaosConfig) (sd : Nat)
    (h : cfg.seed = some sd) (now1 now2 : Nat) (qs : List ChaosQuery) :
    chaosRun (mkInjector cfg now1) qs = chaosRun (mkInjector cfg now2) qs := by
  simp [mkInjector, h]

/-- A fixed-seed configuration with a per-tool delay rule. -/
def cfgSeeded : ChaosConfig :=
  { seed := some 1
    tools := [("read_file", { delayMs := some (.prob { p := 1, value := some 500 }) })] }

/-- C9 witness: the determinism theorem applied at a concrete seeded
configuration, two clock values, and a concrete query sequence. -/
theorem c9_chaos_determinism_witness :
    chaosRun (mkInjector cfgSeeded 100)
        [ChaosQuery.qapply (some "read_file"), ChaosQuery.qdelay (some "read_file")]
      = chaosRun (mkInjector cfgSeeded 200)
        [ChaosQuery.qapply (some "read_file"), ChaosQuery.qdelay (some "read_file")] :=
  c9_chaos_determinism cfgSeeded 1 rfl 100 200 _

/-- Concrete store of the C1 counterexample: one project owning one agent,
which owns one run carrying one journaled event. -/
def exStoreC1 : Store :=
  { projects := [{ id := "p1", name := "proj", description := none, created_at := 0 }]
    agents := [{ id := "a1", project_id := "p1", name := "agent", target := "node s.js",
                 chaos_profile := none, created_at := 0 }]
    runs := [{ id := "r1", agent_id := some "a1", target := "node s.js" }]
    events := [{ id := 1, run_id := "r1", event_type := "tool_call" }]
    nextEventId := 2 }

/-- C1 counterexample: deleting the project removes the project and its
agent, but the agent's run and the run's event survive (the run merely
loses its agent link), so the delete does not cascade to Runs and
Events. -/
theorem c1_cascade_counterexample :
    (deleteProject exStoreC1 "p1").1.projects = [] ∧
    (deleteProject exStoreC1 "p1").1.agents = [] ∧
    (deleteProject exStoreC1 "p1").1.runs
      = [{ id := "r1", agent_id := none, target := "node s.js" }] ∧
    (deleteProject exStoreC1 "p1").1.events
      = [{ id := 1, run_id := "r1", event_type := "tool_call" }] :=
  ⟨rfl, rfl, rfl, rfl⟩

/-- C1 amended: deleting a Project removes the Project and every Agent it
owns (no Agent referencing it remains), while Runs formerly owned by those
Agents survive with their agent link cleared to null and Events are
untouched; Events cascade only when their Run itself is deleted. -/
theorem c1_cascade_delete_amended (s : Store) (pid : String) :
    (deleteProject s pid).1.projects = s.projects.filter (fun p => ¬ p.id = pid) ∧
    (deleteProject s pid).1.agents = s.agents.filter (fun a => ¬ a.project_id = pid) ∧
    (∀ p ∈ (deleteProject s pid).1.projects, p.id ≠ pid) ∧
    (∀ a ∈ (deleteProject s pid).1.agents, a.project_id ≠ pid) ∧
    (deleteProject s pid).1.events = s.events ∧
    (deleteProject s pid).1.runs.length = s.runs.length ∧
    (∀ r' ∈ (deleteProject s pid).1.runs, ∃ r ∈ s.runs,
        r'.id = r.id ∧ (r' = r ∨ r' = { r with agent_id := none })) ∧
    (∀ rid : String,
      (deleteRun s rid).1.events.filter (fun e => e.run_id = rid) = []) := by
  refine ⟨rfl, rfl, ?_, ?_, rfl, ?_, ?_, ?_⟩
  · intro p hp
    simp only [deleteProject, List.mem_filter, decide_not, Bool.not_eq_true',
      decide_eq_false_iff_not] at hp
    exact hp.2
  · intro a ha
    simp only [deleteProject, List.mem_filter, decide_not, Bool.not_eq_true',
      decide_eq_false_iff_not] at ha
    exact ha.2
  · simp [deleteProject]
  · intro r' hr'
    simp only [deleteProject, List.mem_map] at hr'
    obtain ⟨r, hr, heq⟩ := hr'
    refine ⟨r, hr, ?_⟩
    subst heq
    cases hA : r.agent_id with
    | none => simp [hA]
    | some aid =>
        simp only [hA]
        split
        · exact ⟨rfl, Or.inr rfl⟩
        · exact ⟨rfl, Or.inl rfl⟩
  · intro rid
    rw [List.filter_eq_nil_iff]
    intro e he
    simp only [deleteRun, List.mem_filter, decide_not, Bool.not_eq_true',
      decide_eq_false_iff_not] at he
    simp [he.2]

/-- C8: a response line whose id is not in the in-flight correlation map
(never requested, or already matched and removed) is still forwarded to
the client unchanged, is still journaled as an `rpc_response` event with
absent latency, and neither the recorder state nor the run status is
touched (no status effect is emitted). -/
theorem c8_correlation_miss (inj : Option Injector) (rec : Recorder) (now : Nat)
    (s : String) (m : ParsedMsg) (i : RpcId)
    (hid : m.id = some i)
    (hmiss : rec.pendingCalls.lookup i.asKey = none) :
    handleServerLine inj rec now (.json s m) =
      (rec,
       [ProxyEffect.journal (TraceEvent.rpc_response (some i) m.result m.error now none),
        ProxyEffect.forwardToClient s]) := by
  simp [handleServerLine, hid, recordRpcResponse, hmiss]

/-- A parsed response whose id was never requested. -/
def msgC8 : ParsedMsg := { id := some (.num 7) }

/-- C8 witness: the correlation-miss behavior at a concrete unmatched
response against an empty correlation map. -/
theorem c8_correlation_miss_witness :
    handleServerLine none {} 5 (.json "stray" msgC8) =
      (({} : Recorder),
       [ProxyEffect.journal (TraceEvent.rpc_response (some (.num 7)) none none 5 none),
        ProxyEffect.forwardToClient "stray"]) :=
  c8_correlation_miss none {} 5 "stray" msgC8 (.num 7) rfl rfl

/-- The chaos configuration of end-to-end scenario 2: seed 1 and a
certain 500 ms delay on the tool read_file. -/
def cfgC4 : ChaosConfig :=
  { seed := some 1
    tools := [("read_file", { delayMs := some (.prob { p := 1, value := some 500 }) })] }

/-- The injector the proxy builds for that configuration (the ambient
clock is ignored because the seed is fixed). -/
def injC4 : Injector := mkInjector cfgC4 0

/-- The injector state after the delay draw for the request: one mulberry32
step advances the generator state from the seed 1 to 1 + 0x6D2B79F5. -/
def injC4' : Injector := { config := cfgC4, seed := 1, rng := 1831565814 }

/-- The client's `tools/call` request for read_file. -/
def reqC4 : ParsedMsg :=
  { id := some (.num 1), method := some "tools/call"
    params := some (.obj [("name", .str "read_file"),
                          ("arguments", .obj [("path", .str "/tmp/a")])]) }

/-- The tool server's reply to that request. -/
def respC4 : ParsedMsg :=
  { id := some (.num 1), result := some (.obj [("ok", .bool true)]) }

/-- Recorder state after the request was recorded at time 1000. -/
def recC4 : Recorder :=
  { pendingCalls := [("1", { startTime := 1000, tool := some "read_file" })] }

lemma pow32_pos : 0 < pow32 := by norm_num [pow32]

lemma pow32_eq_two_pow : pow32 = 2 ^ 32 := by norm_num [pow32]

/-- Xoring a 32-bit value with one of its right shifts stays 32-bit. -/
lemma xor_shift_lt {t : Nat} (ht : t < 2 ^ 32) (k : Nat) :
    Nat.xor t (t >>> k) < 2 ^ 32 := by
  apply Nat.xor_lt_two_pow ht
  calc t >>> k = t / 2 ^ k := Nat.shiftRight_eq_div_pow t k
    _ ≤ t := Nat.div_le_self t _
    _ < 2 ^ 32 := ht

/-- The mulberry32 numerator is a 32-bit value. -/
lemma mbNext_fst_lt (s : Nat) : (mbNext s).1 < pow32 := by
  unfold mbNext
  dsimp only
  simp only [imul32]
  rw [pow32_eq_two_pow]
  have hmod : ∀ x : Nat, x % pow32 < 2 ^ 32 := fun x => by
    rw [← pow32_eq_two_pow]
    exact Nat.mod_lt _ pow32_pos
  apply xor_shift_lt
  exact Nat.xor_lt_two_pow (hmod _) (hmod _)

/-- The produced fraction never exceeds one. -/
lemma mbFrac_le_one {u : Nat} (hu : u < pow32) : mbFrac u ≤ 1 := by
  have hp : (0 : ℚ) < (pow32 : ℚ) := by norm_num [pow32]
  unfold mbFrac
  rw [div_le_one hp]
  exact_mod_cast le_of_lt hu

/-- Resolving a probabilistic value with `p = 1` and a fixed value always
yields the value, consuming one draw. -/
lemma resolveValue_certain (inj : Injector) (pv : ProbValue) (v : ℚ)
    (hp : pv.p = 1) (hv : pv.value = some v) :
    resolveValue inj (some (.prob pv))
      = (some v, { inj with rng := (mbNext inj.rng).2 }) := by
  have h1 : ¬ mbFrac (mbNext inj.rng).1 > pv.p := by
    rw [hp]
    exact not_lt.mpr (mbFrac_le_one (mbNext_fst_lt _))
  simp [resolveValue, h1, hv]

/-- The delay drawn for read_file under the scenario configuration. -/
lemma getDelayC4 : getDelay injC4 (some "read_file") = (500, injC4') := by
  have hrule : getRuleForTool injC4.config (some "read_file")
      = { delayMs := some (.prob { p := 1, value := some 500 }) } := rfl
  have h := resolveValue_certain injC4 { p := 1, value := some 500 } 500 rfl rfl
  simp only [getDelay, hrule, h, Option.getD_some]
  rfl

/-- C4 counterexample: in the scenario of the claim, the journal rows
written for the reply are a `tool_result` whose chaos descriptor is only
`\x7b"seed":1\x7d` and an `rpc_response` whose chaos column is null — the
`rpc_response` event does not carry `chaos_applied.delayMs = 500`, nor any
chaos descriptor at all. -/
theorem c4_chaos_descriptor_counterexample :
    ((handleServerLine (some injC4') recC4 1600 (ClientLine.json "RESP" respC4)).2.filterMap
        (fun eff => match eff with
          | ProxyEffect.journal e => some (eventToRow "r1" e 0)
          | _ => none)).map (fun row => (row.event_type, row.chaos_applied))
      = [("tool_result", some "\x7b\"seed\":1\x7d"), ("rpc_response", none)] := rfl

/-- C4 amended: with chaos config seed 1 and a certain 500 ms delay on
read_file, the proxy journals the request and its `tool_call`, sleeps
500 ms before forwarding the request, and on the reply journals a
`tool_result` whose chaos descriptor carries only `seed = 1` (no
`delayMs`) followed by an `rpc_response` event that carries latency but no
chaos descriptor, then forwards the reply. -/
theorem c4_chaos_delay_amended :
    handleClientLine (some injC4) {} 1000 (ClientLine.json "REQ" reqC4) =
      (({ pendingCalls := [("1", { startTime := 1000, tool := some "read_file" })] } : Recorder),
       some injC4',
       [ProxyEffect.journal (TraceEvent.rpc_request (some (.num 1)) "tools/call" reqC4.params 1000),
        ProxyEffect.journal (TraceEvent.tool_call "read_file"
          (some (.obj [("path", .str "/tmp/a")])) 1000 "1"),
        ProxyEffect.sleep 500,
        ProxyEffect.forwardToServer "REQ"]) ∧
    handleServerLine (some injC4') recC4 1600 (ClientLine.json "RESP" respC4) =
      (({ pendingCalls := [], callCount := 1 } : Recorder),
       [ProxyEffect.journal (TraceEvent.tool_result "1" true respC4.result none 1600 600
          (some { seed := some 1 })),
        ProxyEffect.journal (TraceEvent.rpc_response (some (.num 1)) respC4.result none
          1600 (some 600)),
        ProxyEffect.forwardToClient "RESP"]) := by
  constructor
  · have hname : paramsName reqC4.params = some "read_file" := rfl
    have hrec : recordRpcRequest {} 1000 (some (.num 1)) "tools/call" reqC4.params
        = (({ pendingCalls := [("1", { startTime := 1000, tool := some "read_file" })] } : Recorder),
           [TraceEvent.rpc_request (some (.num 1)) "tools/call" reqC4.params 1000,
            TraceEvent.tool_call "read_file" (some (.obj [("path", .str "/tmp/a")])) 1000 "1"]) := rfl
    have h500 : (0 : ℚ) < 500 := by norm_num
    have hmethod : reqC4.method = some "tools/call" := rfl
    have hid : reqC4.id = some (.num 1) := rfl
    simp [handleClientLine, hmethod, hid, hname, getDelayC4, hrec, h500]
  · rfl

/-! ### Comparator projection lemmas -/

lemma foldl_app4_eq {α : Type}
    (f : α → List CallDiff × List CallDiff × List CallChange × List LatencyChange) :
    ∀ (l : List α) (init : List CallDiff × List CallDiff × List CallChange × List LatencyChange),
    l.foldl (fun acc x => app4 acc (f x)) init =
      (init.1 ++ l.flatMap (fun x => (f x).1),
       init.2.1 ++ l.flatMap (fun x => (f x).2.1),
       init.2.2.1 ++ l.flatMap (fun x => (f x).2.2.1),
       init.2.2.2 ++ l.flatMap (fun x => (f x).2.2.2)) := by
  intro l
  induction l with
  | nil => intro init; simp
  | cons x xs ih =>
      intro init
      rw [List.foldl_cons, ih]
      simp [app4, List.append_assoc]

lemma compareTraces_changed (b c : Trace) :
    (compareTraces b c).changed =
      (groupByMethod b.calls).flatMap
        (fun pair => (methodContrib (groupByMethod c.calls) pair).2.2.1) := by
  unfold compareTraces
  dsimp only
  rw [foldl_app4_eq]
  simp

lemma compareTraces_latency (b c : Trace) :
    (compareTraces b c).latencyChanges =
      (groupByMethod b.calls).flatMap
        (fun pair => (methodContrib (groupByMethod c.calls) pair).2.2.2) := by
  unfold compareTraces
  dsimp only
  rw [foldl_app4_eq]
  simp

lemma compareTraces_added (b c : Trace) :
    (compareTraces b c).added =
      ((groupByMethod c.calls).filter
          (fun p => !((groupByMethod b.calls).any (fun q => q.1 = p.1)))).flatMap
        (fun p => p.2.map (fun cc =>
          ({ method := p.1, params := cc.params, index := cc.id } : CallDiff)))
      ++ (groupByMethod b.calls).flatMap
        (fun pair => (methodContrib (groupByMethod c.calls) pair).1) := by
  unfold compareTraces
  dsimp only
  rw [foldl_app4_eq]
  simp

lemma compareTraces_removed (b c : Trace) :
    (compareTraces b c).removed =
      ((groupByMethod b.calls).filter
          (fun p => !((groupByMethod c.calls).any (fun q => q.1 = p.1)))).flatMap
        (fun p => p.2.map (fun cc =>
          ({ method := p.1, params := cc.params, index := cc.id } : CallDiff)))
      ++ (groupByMethod b.calls).flatMap
        (fun pair => (methodContrib (groupByMethod c.calls) pair).2.1) := by
  unfold compareTraces
  dsimp only
  rw [foldl_app4_eq]
  simp

lemma methodContrib_changed (cBy : List (String × List TraceCall))
    (pair : String × List TraceCall) :
    (methodContrib cBy pair).2.2.1 =
      match cBy.lookup pair.1 with
      | none => []
      | some curCalls =>
          ((pair.2.zip curCalls).enum).filterMap (fun iz =>
            let pe := stringifyOpt iz.2.1.params == stringifyOpt iz.2.2.params
            let re := stringifyOpt iz.2.1.result == stringifyOpt iz.2.2.result
            if pe && re then none
            else some ({ method := pair.1, index := iz.1,
                         baselineParams := iz.2.1.params, currentParams := iz.2.2.params,
                         baselineResult := iz.2.1.result, currentResult := iz.2.2.result,
                         paramsDiff := if pe then none else some "Parameters changed",
                         resultDiff := if re then none else some "Result changed" } : CallChange)) := by
  cases h : cBy.lookup pair.1 <;> simp [methodContrib, h]

lemma methodContrib_lat (cBy : List (String × List TraceCall))
    (pair : String × List TraceCall) :
    (methodContrib cBy pair).2.2.2 =
      match cBy.lookup pair.1 with
      | none => []
      | some curCalls =>
          ((pair.2.zip curCalls).enum).filterMap (fun iz =>
            let pct := latencyChangePct iz.2.1.latencyMs iz.2.2.latencyMs
            if absGt20 pct then
              some ({ method := pair.1, index := iz.1,
                      baselineLatency := iz.2.1.latencyMs,
                      currentLatency := iz.2.2.latencyMs,
                      changePercent := pct } : LatencyChange)
            else none) := by
  cases h : cBy.lookup pair.1 <;> simp [methodContrib, h]

lemma methodContrib_added (cBy : List (String × List TraceCall))
    (pair : String × List TraceCall) :
    (methodContrib cBy pair).1 =
      match cBy.lookup pair.1 with
      | none => []
      | some curCalls =>
          (curCalls.drop (min pair.2.length curCalls.length)).map (fun c =>
            ({ method := pair.1, params := c.params, index := c.id } : CallDiff)) := by
  cases h : cBy.lookup pair.1 with
  | none => simp [methodContrib, h]
  | some curCalls =>
      by_cases hlt : pair.2.length < curCalls.length
      · simp [methodContrib, h, hlt, Nat.min_eq_left (le_of_lt hlt)]
      · simp [methodContrib, h, hlt, Nat.min_eq_right (Nat.le_of_not_lt hlt),
          List.drop_length]

lemma methodContrib_removed (cBy : List (String × List TraceCall))
    (pair : String × List TraceCall) :
    (methodContrib cBy pair).2.1 =
      match cBy.lookup pair.1 with
      | none => []
      | some curCalls =>
          (pair.2.drop (min pair.2.length curCalls.length)).map (fun c =>
            ({ method := pair.1, params := c.params, index := c.id } : CallDiff)) := by
  cases h : cBy.lookup pair.1 with
  | none => simp [methodContrib, h]
  | some curCalls =>
      by_cases hlt : curCalls.length < pair.2.length
      · simp [methodContrib, h, hlt, Nat.min_eq_right (le_of_lt hlt)]
      · simp [methodContrib, h, hlt, Nat.min_eq_left (Nat.le_of_not_lt hlt),
          List.drop_length]

/-- C3 amended: the Diff Engine does not compare per-tool mean latencies;
per tool present on both sides it compares latencies pairwise on the
zipped call lists, emitting a `latency_change` entry at each index whose
pairwise relative change exceeds 20 percent in magnitude. -/
theorem c3_latency_pairwise_amended (b c : Trace) :
    (compareTraces b c).latencyChanges = latencyChangesSpec b c := by
  rw [compareTraces_latency]
  unfold latencyChangesSpec
  simp only [methodContrib_lat]

/-- Latencies of the C3 counterexample: baseline per-call latencies 100
then 200 for tool t; current 200 then 100. -/
def bExC3 : Trace :=
  ⟨[{ id := 1, method := "t", latencyMs := 100 },
    { id := 2, method := "t", latencyMs := 200 }]⟩

def cExC3 : Trace :=
  ⟨[{ id := 1, method := "t", latencyMs := 200 },
    { id := 2, method := "t", latencyMs := 100 }]⟩

/-- C3 counterexample: the two sides have identical per-tool mean latency
(150 each), so the mean-based rule of the claim emits nothing for tool t,
yet the engine emits two `latency_change` entries (+100 percent and −50
percent pairwise). -/
theorem c3_latency_counterexample :
    meanLatency bExC3.calls = 150 ∧
    meanLatency cExC3.calls = 150 ∧
    specMeanEmit bExC3.calls cExC3.calls = false ∧
    (compareTraces bExC3 cExC3).latencyChanges.length = 2 := by
  have h1 : latencyChangePct 100 200 = .val 100 := by norm_num [latencyChangePct]
  have h2 : latencyChangePct 200 100 = .val (-50) := by norm_num [latencyChangePct]
  have h3 : absGt20 (.val 100) = true := by norm_num [absGt20]
  have h4 : absGt20 (.val (-50)) = true := by norm_num [absGt20]
  refine ⟨?_, ?_, ?_, ?_⟩
  · norm_num [meanLatency, bExC3]
  · norm_num [meanLatency, cExC3]
  · norm_num [specMeanEmit, meanLatency, bExC3, cExC3, latencyChangePct, absGt20]
  · rw [compareTraces_latency]
    have hgb : groupByMethod bExC3.calls = [("t", bExC3.calls)] := rfl
    have hgc : groupByMethod cExC3.calls = [("t", cExC3.calls)] := rfl
    rw [hgb]
    simp only [methodContrib_lat]
    rw [hgc]
    simp [bExC3, cExC3, h1, h2, h3, h4, List.enum, List.enumFrom]

/-- C6 amended: for tools present on both sides the engine zips the two
call lists up to the common length and emits a `changed` entry at an index
exactly when the serialized argument payloads or the serialized result
payloads differ there (a result-only difference also produces an entry);
surplus calls beyond `min(|A|,|B|)` become added or removed entries. -/
theorem c6_diff_zip_amended (b c : Trace) :
    (compareTraces b c).changed = changedSpec b c ∧
    (compareTraces b c).added = addedSpec b c ∧
    (compareTraces b c).removed = removedSpec b c := by
  refine ⟨?_, ?_, ?_⟩
  · rw [compareTraces_changed]
    unfold changedSpec
    simp only [methodContrib_changed]
  · rw [compareTraces_added]
    unfold addedSpec
    simp only [methodContrib_added]
  · rw [compareTraces_removed]
    unfold removedSpec
    simp only [methodContrib_removed]

/-- Calls of the C6 counterexample: identical arguments, different
results. -/
def bExC6 : Trace :=
  ⟨[{ id := 1, method := "t", params := some (.str "a"),
      result := some (.str "r1"), latencyMs := 10 }]⟩

def cExC6 : Trace :=
  ⟨[{ id := 1, method := "t", params := some (.str "a"),
      result := some (.str "r2"), latencyMs := 10 }]⟩

/-- C6 counterexample: the zipped pair has identical argument payloads
(equal canonical JSON), yet the engine emits a `changed` entry — because
the serialized results differ — refuting "exactly when the argument
payloads differ and for no other reason". -/
theorem c6_changed_counterexample :
    stringifyOpt (bExC6.calls.head?.bind (fun x => x.params))
      = stringifyOpt (cExC6.calls.head?.bind (fun x => x.params)) ∧
    (compareTraces bExC6 cExC6).changed.length = 1 ∧
    ((compareTraces bExC6 cExC6).changed.head?.map
        (fun ch => (ch.paramsDiff, ch.resultDiff)))
      = some (none, some "Result changed") :=
  ⟨rfl, rfl, rfl⟩

/-! ### Stress-counter invariant (C7) -/

/-- Number of `stress_mutation` events journaled for a run. -/
def stressEventCount (s : Store) (runId : String) : Nat :=
  (s.events.filter
    (fun e => e.run_id = runId ∧ e.event_type = "stress_mutation")).length

lemma insertTraceEvent_runs (st : Store) (runId : String) (e : TraceEvent) :
    (insertTraceEvent st runId e).runs = st.runs := rfl

lemma updateRunStatus_events (s : Store) (id : String) (st : RunStatus)
    (stats : Option UpdateStats) (now : Nat) :
    (updateRunStatus s id st stats now).events = s.events := rfl

lemma updateStressStats_events (s : Store) (id : String) (p g c sc : Nat) :
    (updateStressStats s id p g c sc).events = s.events := rfl

lemma stressEventCount_insert_stress (st : Store) (runId tool mty desc : String)
    (inp : Json) (oc : StressOutcome) (r er : Option Json) (lat ts : Nat) :
    stressEventCount
        (insertTraceEvent st runId
          (TraceEvent.stress_mutation tool mty desc inp oc r er lat ts)) runId
      = stressEventCount st runId + 1 := by
  simp [stressEventCount, insertTraceEvent, insertEventRow, eventToRow,
    List.filter_append]

lemma outcomeInc_sum (oc : StressOutcome) :
    (outcomeInc oc).1 + (outcomeInc oc).2.1 + (outcomeInc oc).2.2 = 1 := by
  cases oc <;> simp [outcomeInc]

lemma sweepMuts_spec (runId : String) (respond : Nat → ProbeRes) (tool : String)
    (now : Nat) :
    ∀ (ms : List Mutation) (st : Store) (mid : Nat),
      (sweepMuts runId respond tool now ms st mid).1.runs = st.runs ∧
      stressEventCount (sweepMuts runId respond tool now ms st mid).1 runId
        = stressEventCount st runId
          + ((sweepMuts runId respond tool now ms st mid).2.1.1
             + (sweepMuts runId respond tool now ms st mid).2.1.2.1
             + (sweepMuts runId respond tool now ms st mid).2.1.2.2) := by
  intro ms
  induction ms with
  | nil => intro st mid; simp [sweepMuts]
  | cons m rest ih =>
      intro st mid
      obtain ⟨h1, h2⟩ := ih (insertTraceEvent st runId
        (TraceEvent.stress_mutation tool m.type.name m.description m.input
          (classifyOutcome (respond (mid + 1)).error
            ((respond (mid + 1)).result.map fun _ => Unit.unit)
            (respond (mid + 1)).timedOut)
          (respond (mid + 1)).result (probeErrorJson (respond (mid + 1)).error) 0 now))
        (mid + 1)
      refine ⟨?_, ?_⟩
      · simp only [sweepMuts]
        rw [h1, insertTraceEvent_runs]
      · simp only [sweepMuts]
        rw [h2, stressEventCount_insert_stress]
        have hs := outcomeInc_sum (classifyOutcome (respond (mid + 1)).error
          ((respond (mid + 1)).result.map fun _ => Unit.unit)
          (respond (mid + 1)).timedOut)
        omega

lemma sweepTools_spec (runId : String) (respond : Nat → ProbeRes) (now : Nat) :
    ∀ (tools : List ToolDecl) (st : Store) (mid : Nat),
      (sweepTools runId respond now tools st mid).1.runs = st.runs ∧
      stressEventCount (sweepTools runId respond now tools st mid).1 runId
        = stressEventCount st runId
          + ((sweepTools runId respond now tools st mid).2.1.1
             + (sweepTools runId respond now tools st mid).2.1.2.1
             + (sweepTools runId respond now tools st mid).2.1.2.2) := by
  intro tools
  induction tools with
  | nil => intro st mid; simp [sweepTools]
  | cons t rest ih =>
      intro st mid
      cases hschema : t.inputSchema with
      | none =>
          obtain ⟨h1, h2⟩ := ih st mid
          constructor
          · simp only [sweepTools, hschema]
            exact h1
          · simp only [sweepTools, hschema]
            exact h2
      | some schema =>
          obtain ⟨hm1, hm2⟩ := sweepMuts_spec runId respond t.name now
            (generateMutations schema) st mid
          obtain ⟨h1, h2⟩ := ih
            (sweepMuts runId respond t.name now (generateMutations schema) st mid).1
            (sweepMuts runId respond t.name now (generateMutations schema) st mid).2.2
          constructor
          · simp only [sweepTools, hschema]
            rw [h1, hm1]
          · simp only [sweepTools, hschema]
            rw [h2, hm2]
            omega

/-- Membership in a mapped run table where exactly the rows with the given
id were rewritten. -/
lemma mem_runs_update (runs : List Run) {f : Run → Run} {runId : String} {r' : Run}
    (h : r' ∈ runs.map (fun r => if r.id = runId then f r else r))
    (hid : r'.id = runId) :
    ∃ r ∈ runs, r.id = runId ∧ r' = f r := by
  rcases List.mem_map.mp h with ⟨r, hr, heq⟩
  by_cases hc : r.id = runId
  · rw [if_pos hc] at heq
    exact ⟨r, hr, hc, heq.symm⟩
  · rw [if_neg hc] at heq
    exact absurd (heq ▸ hid) hc

/-- C7: for every stress run started fresh (no prior `stress_mutation`
events and zeroed stress counters), the run reaches a terminal state and
there `stress_passed + stress_graceful + stress_crashed` equals the number
of `stress_mutation` events journaled for the run; each such event carries
an outcome that is one of pass, graceful_fail, or crash_or_hang (the
outcome type is exactly that closed set). -/
theorem c7_stress_counters (s : Store) (agent : Option Agent) (runId : String)
    (tools : List ToolDecl) (respond : Nat → ProbeRes) (now : Nat)
    (hcnt : ∀ r ∈ s.runs, r.id = runId →
      r.stress_passed = 0 ∧ r.stress_graceful = 0 ∧ r.stress_crashed = 0)
    (hev : stressEventCount s runId = 0) :
    (∀ r' ∈ (runStressTests s agent runId tools respond now).runs, r'.id = runId →
      (r'.status = .completed ∨ r'.status = .failed) ∧
      r'.stress_passed + r'.stress_graceful + r'.stress_crashed
        = stressEventCount (runStressTests s agent runId tools respond now) runId) ∧
    (∀ (rid tool mty desc : String) (inp : Json) (oc : StressOutcome)
        (r er : Option Json) (lat ts rowId : Nat),
      (oc.name = "pass" ∨ oc.name = "graceful_fail" ∨ oc.name = "crash_or_hang") ∧
      (eventToRow rid (TraceEvent.stress_mutation tool mty desc inp oc r er lat ts)
          rowId).event_type = "stress_mutation") := by
  constructor
  · intro r' hr' hid
    match hagent : agent with
    | none =>
        simp only [runStressTests] at hr' ⊢
        obtain ⟨r, hr, hrid, heq⟩ := mem_runs_update s.runs hr' hid
        subst heq
        obtain ⟨hp, hg, hc⟩ := hcnt r hr hrid
        refine ⟨Or.inr rfl, ?_⟩
        simp only [updateRunStatusRow]
        rw [hp, hg, hc]
        simpa [stressEventCount] using hev.symm
    | some ag =>
        match hcmd : (parseCommand ag.target).1 with
        | none =>
            simp only [runStressTests, hcmd] at hr' ⊢
            obtain ⟨r, hr, hrid, heq⟩ := mem_runs_update s.runs hr' hid
            subst heq
            obtain ⟨hp, hg, hc⟩ := hcnt r hr hrid
            refine ⟨Or.inr rfl, ?_⟩
            simp only [updateRunStatusRow]
            rw [hp, hg, hc]
            simpa [stressEventCount] using hev.symm
        | some cmd =>
            simp only [runStressTests, hcmd] at hr' ⊢
            obtain ⟨r2, hr2, hr2id, heq⟩ := mem_runs_update _ hr' hid
            subst heq
            obtain ⟨r1, hr1, hr1id, heq2⟩ := mem_runs_update _ hr2 hr2id
            subst heq2
            refine ⟨Or.inl rfl, ?_⟩
            set s0 := updateRunStatus s runId RunStatus.running none now with hs0
            set res := sweepTools runId respond now tools s0 2 with hres
            obtain ⟨hs1, hs2⟩ := sweepTools_spec runId respond now tools s0 2
            rw [← hres] at hs2
            have hz : stressEventCount s0 runId = 0 := hev
            have hfin : ∀ sc : Nat,
                stressEventCount (updateRunStatus
                  (updateStressStats res.1 runId res.2.1.1 res.2.1.2.1 res.2.1.2.2 sc)
                  runId RunStatus.completed none now) runId
                = stressEventCount res.1 runId := fun _ => rfl
            rw [hfin]
            simp only [updateRunStatusRow]
            rw [hs2, hz]
            omega
  · intro rid tool mty desc inp oc r er lat ts rowId
    refine ⟨?_, rfl⟩
    cases oc
    · exact Or.inl rfl
    · exact Or.inr (Or.inl rfl)
    · exact Or.inr (Or.inr rfl)

/-- A fresh stress run in an otherwise empty store. -/
def exStoreC7 : Store :=
  { projects := [], agents := []
    runs := [{ id := "r1", agent_id := none, target := "x", run_type := .stress }]
    events := [], nextEventId := 1 }

/-- C7 witness: the counter invariant applied to a concrete fresh stress
run (missing agent, so the run terminates failed with zero probes). -/
theorem c7_stress_counters_witness :
    (∀ r' ∈ (runStressTests exStoreC7 none "r1" [] (fun _ => ({} : ProbeRes)) 3).runs,
      r'.id = "r1" →
      (r'.status = .completed ∨ r'.status = .failed) ∧
      r'.stress_passed + r'.stress_graceful + r'.stress_crashed
        = stressEventCount (runStressTests exStoreC7 none "r1" []
            (fun _ => ({} : ProbeRes)) 3) "r1") ∧
    (∀ (rid tool mty desc : String) (inp : Json) (oc : StressOutcome)
        (r er : Option Json) (lat ts rowId : Nat),
      (oc.name = "pass" ∨ oc.name = "graceful_fail" ∨ oc.name = "crash_or_hang") ∧
      (eventToRow rid (TraceEvent.stress_mutation tool mty desc inp oc r er lat ts)
          rowId).event_type = "stress_mutation") :=
  c7_stress_counters exStoreC7 none "r1" [] (fun _ => ({} : ProbeRes)) 3
    (by
      intro r hr hid
      have h : r = { id := "r1", agent_id := none, target := "x", run_type := .stress } :=
        List.mem_singleton.mp hr
      rw [h]
      exact ⟨rfl, rfl, rfl⟩)
    rfl

end McpChaos
